import Mathlib

/-!
Verification of the News Clustering & Ranking Engine (`src/ai_briefing`).

This file gives a shallow embedding, in Lean 4, of the algorithmic core of
the repository: the link selector, value-signal scorer, cluster assigner,
cluster scorer, repo scorer, backfill controller and dedup gate, translated
from `ranker/news.py`, `ranker/repo.py` and `briefing/dedup.py`.

Numeric conventions: Python floats are modelled as exact rationals (`ℚ`)
except for the repo scorer, whose `** 0.5` square root is modelled with
`Real.sqrt`; machine integers and timestamps are `ℤ` (epoch seconds);
Python `str` is `String`, with `in` (substring) read on the code-point
lists.  Database reads/writes are modelled as explicit inputs/outputs.
-/

/-! ### `hashlib.md5` and `_stable_hash` (ranker/news.py lines 92-94)

`_stable_hash(text, seed)` is `int(hashlib.md5(f"{seed}|{text}".encode("utf-8")).hexdigest(), 16)`.
We embed MD5 itself (RFC 1321) over byte lists, together with UTF-8 encoding
of the code points of a `String`. -/

/-- UTF-8 encoding of a single Unicode code point (as `str.encode("utf-8")`). -/
def utf8EncodeChar (n : Nat) : List Nat :=
  if n < 128 then [n]
  else if n < 2048 then [192 + n / 64, 128 + n % 64]
  else if n < 65536 then [224 + n / 4096, 128 + n / 64 % 64, 128 + n % 64]
  else [240 + n / 262144, 128 + n / 4096 % 64, 128 + n / 64 % 64, 128 + n % 64]

/-- `s.encode("utf-8")` as a list of byte values. -/
def utf8Bytes (s : String) : List Nat :=
  s.data.flatMap (fun c => utf8EncodeChar c.toNat)

/-- The 64 MD5 round constants `K[i] = floor(abs(sin(i+1)) * 2^32)`. -/
def md5K : List Nat :=
  [0xd76aa478, 0xe8c7b756, 0x242070db, 0xc1bdceee, 0xf57c0faf, 0x4787c62a, 0xa8304613, 0xfd469501,
   0x698098d8, 0x8b44f7af, 0xffff5bb1, 0x895cd7be, 0x6b901122, 0xfd987193, 0xa679438e, 0x49b40821,
   0xf61e2562, 0xc040b340, 0x265e5a51, 0xe9b6c7aa, 0xd62f105d, 0x02441453, 0xd8a1e681, 0xe7d3fbc8,
   0x21e1cde6, 0xc33707d6, 0xf4d50d87, 0x455a14ed, 0xa9e3e905, 0xfcefa3f8, 0x676f02d9, 0x8d2a4c8a,
   0xfffa3942, 0x8771f681, 0x6d9d6122, 0xfde5380c, 0xa4beea44, 0x4bdecfa9, 0xf6bb4b60, 0xbebfbc70,
   0x289b7ec6, 0xeaa127fa, 0xd4ef3085, 0x04881d05, 0xd9d4d039, 0xe6db99e5, 0x1fa27cf8, 0xc4ac5665,
   0xf4292244, 0x432aff97, 0xab9423a7, 0xfc93a039, 0x655b59c3, 0x8f0ccc92, 0xffeff47d, 0x85845dd1,
   0x6fa87e4f, 0xfe2ce6e0, 0xa3014314, 0x4e0811a1, 0xf7537e82, 0xbd3af235, 0x2ad7d2bb, 0xeb86d391]

/-- The 64 MD5 per-round left-rotation amounts. -/
def md5S : List Nat :=
  [7, 12, 17, 22, 7, 12, 17, 22, 7, 12, 17, 22, 7, 12, 17, 22,
   5, 9, 14, 20, 5, 9, 14, 20, 5, 9, 14, 20, 5, 9, 14, 20,
   4, 11, 16, 23, 4, 11, 16, 23, 4, 11, 16, 23, 4, 11, 16, 23,
   6, 10, 15, 21, 6, 10, 15, 21, 6, 10, 15, 21, 6, 10, 15, 21]

/-- MD5 padding: append `0x80`, zero-pad to 56 mod 64, then the original
bit length as 8 little-endian bytes. -/
def md5Pad (msg : List Nat) : List Nat :=
  msg ++ 128 :: List.replicate ((119 - msg.length % 64) % 64) 0
      ++ (List.range 8).map (fun i => msg.length * 8 / 2 ^ (8 * i) % 256)

/-- A 32-bit word from 4 little-endian bytes. -/
def leWord (bs : List Nat) : Nat :=
  bs.foldr (fun b acc => b + acc * 256) 0

/-- Left rotation of a 32-bit word. -/
def rotl32 (x s : Nat) : Nat :=
  (x * 2 ^ s + x / 2 ^ (32 - s)) % 4294967296

/-- The MD5 round mixing function (F/G/H/I by round group); `~x` on a
32-bit word is `4294967295 - x`. -/
def md5F (i b c d : Nat) : Nat :=
  if i < 16 then b &&& c ||| (4294967295 - b) &&& d
  else if i < 32 then d &&& b ||| (4294967295 - d) &&& c
  else if i < 48 then b ^^^ c ^^^ d
  else c ^^^ (b ||| (4294967295 - d))

/-- The MD5 message-word index for round `i`. -/
def md5G (i : Nat) : Nat :=
  if i < 16 then i
  else if i < 32 then (5 * i + 1) % 16
  else if i < 48 then (3 * i + 5) % 16
  else 7 * i % 16

/-- One MD5 round on state `(a, b, c, d)` with message words `w`. -/
def md5Step (w : List Nat) (st : Nat × Nat × Nat × Nat) (i : Nat) : Nat × Nat × Nat × Nat :=
  let (a, b, c, d) := st
  let tmp := (a + md5F i b c d + md5K.getD i 0 + w.getD (md5G i) 0) % 4294967296
  (d, (b + rotl32 tmp (md5S.getD i 0)) % 4294967296, b, c)

/-- Process one 64-byte block. -/
def md5Block (st : Nat × Nat × Nat × Nat) (block : List Nat) : Nat × Nat × Nat × Nat :=
  let w := (List.range 16).map (fun j => leWord ((block.drop (4 * j)).take 4))
  let r := (List.range 64).foldl (md5Step w) st
  ((st.1 + r.1) % 4294967296, (st.2.1 + r.2.1) % 4294967296,
   (st.2.2.1 + r.2.2.1) % 4294967296, (st.2.2.2 + r.2.2.2) % 4294967296)

/-- Process a padded message 64 bytes at a time. -/
def md5Blocks (st : Nat × Nat × Nat × Nat) (l : List Nat) : Nat × Nat × Nat × Nat :=
  if h : l = [] then st
  else md5Blocks (md5Block st (l.take 64)) (l.drop 64)
termination_by l.length
decreasing_by
  simp only [List.length_drop]
  exact Nat.sub_lt (List.length_pos.mpr h) (by norm_num)

/-- The 4 little-endian bytes of a 32-bit word. -/
def wordLEBytes (x : Nat) : List Nat :=
  [x % 256, x / 256 % 256, x / 65536 % 256, x / 16777216 % 256]

/-- The 16-byte MD5 digest of a byte string. -/
def md5Digest (msg : List Nat) : List Nat :=
  let r := md5Blocks (0x67452301, 0xefcdab89, 0x98badcfe, 0x10325476) (md5Pad msg)
  wordLEBytes r.1 ++ wordLEBytes r.2.1 ++ wordLEBytes r.2.2.1 ++ wordLEBytes r.2.2.2

/-- `int(md5(msg).hexdigest(), 16)`: the digest bytes read as a big-endian
integer. -/
def md5HexInt (msg : List Nat) : Nat :=
  (md5Digest msg).foldl (fun acc b => acc * 256 + b) 0

/-- `_stable_hash(text, seed) = int(md5(f"{seed}|{text}".encode()).hexdigest(), 16)`. -/
def stable_hash (text : String) (seed : String) : Nat :=
  md5HexInt (utf8Bytes (seed ++ "|" ++ text))

/-! ### Domain extraction and priority tables (ranker/news.py lines 37-105) -/

def OFFICIAL_DOMAINS : List String :=
  ["openai.com", "ai.googleblog.com", "deepmind.google", "research.google",
   "huggingface.co", "blogs.microsoft.com", "blogs.nvidia.com", "aws.amazon.com",
   "ai.meta.com", "anthropic.com", "stability.ai"]

def CODE_DOMAINS : List String :=
  ["github.com", "gitlab.com", "bitbucket.org"]

def PAPER_DOMAINS : List String :=
  ["arxiv.org", "openreview.net", "papers.nips.cc", "aclanthology.org"]

def AUTHORITY_DOMAINS : List String :=
  ["nature.com", "science.org", "sciencedirect.com", "ieee.org", "acm.org"]

def COMMUNITY_DOMAINS : List String :=
  ["news.ycombinator.com", "reddit.com", "lobste.rs", "medium.com", "towardsdatascience.com"]

/-- Python `str.strip()` (whitespace trim). -/
def pyStrip (s : String) : String := s.trim

/-- Python `str.lower()`. -/
def pyLower (s : String) : String := s.toLower

/-- Characters allowed after the first character of a URL scheme
(`urllib.parse` accepts alphanumerics and `+`, `-`, `.`). -/
def schemeTailChar (c : Char) : Bool :=
  c.isAlphanum || c = '+' || c = '-' || c = '.'

/-- `urlsplit` scheme removal: if the text up to the first `:` is a valid
nonempty scheme, drop it (and the colon); otherwise leave the url as is. -/
def splitSchemeRest (cs : List Char) : List Char :=
  let pre := cs.takeWhile (fun c => c != ':')
  match cs.dropWhile (fun c => c != ':') with
  | ':' :: tail =>
      if !pre.isEmpty && (pre.headD ' ').isAlpha && pre.all schemeTailChar then tail else cs
  | _ => cs

/-- `urlsplit(url).netloc` as a character list: present only after `//`,
running until the next `/`, `?` or `#`. -/
def netlocChars (cs : List Char) : List Char :=
  match splitSchemeRest cs with
  | '/' :: '/' :: r => r.takeWhile (fun c => c != '/' && c != '?' && c != '#')
  | _ => []

/-- `_get_domain` (ranker/news.py lines 83-90): the lowercased netloc of the
url, or `""` when the url is empty or has no netloc. -/
def get_domain (url : String) : String :=
  if url = "" then ""
  else pyLower (String.mk (netlocChars url.data))

/-- `_link_priority` (ranker/news.py lines 96-105). -/
def link_priority (domain : String) : Nat :=
  if domain ∈ OFFICIAL_DOMAINS then 4
  else if domain ∈ CODE_DOMAINS ∨ domain ∈ PAPER_DOMAINS then 3
  else if domain ∈ AUTHORITY_DOMAINS then 2
  else if domain ∈ COMMUNITY_DOMAINS then 1
  else 1

/-! ### Link selector (ranker/news.py lines 107-183) -/

/-- An input row for `_select_cluster_links`: a dict with optional `url`
and `domain` keys (as produced by `get_top_clusters`). -/
structure LinkItem where
  url : Option String
  domain : Option String
deriving DecidableEq

/-- A candidate dict `{"url": ..., "domain": ...}`. -/
structure Cand where
  url : String
  domain : String
deriving DecidableEq

/-- A candidate annotated with `"priority"` and `"tie"` keys
(ranker/news.py lines 156-158). -/
structure ACand where
  url : String
  domain : String
  priority : Nat
  tie : Nat
deriving DecidableEq

/-- The `debug` dict of `_select_cluster_links`; keys absent from the
empty-candidates branch are `none`. -/
structure LinkDebug where
  candidateCount : Nat
  filteredArxiv : Bool
  primaryDomain : Option String
  primaryPriorityLabel : Option String
deriving DecidableEq

/-- The result dict of `_select_cluster_links`. -/
structure LinkResult where
  primaryLink : String
  evidenceLinks : List String
  debug : LinkDebug
deriving DecidableEq

/-- The candidate-building loop of `_select_cluster_links`
(lines 132-143): keep items with a nonempty stripped url and a nonempty
domain (`_get_domain(url)` falling back to the item's lowercased stripped
`domain` value). -/
def buildCandidates (items : List LinkItem) : List Cand :=
  items.filterMap fun item =>
    let url := pyStrip (item.url.getD "")
    if url = "" then none
    else
      let d := get_domain url
      let domain := if d ≠ "" then d else pyLower (pyStrip (item.domain.getD ""))
      if domain = "" then none else some ⟨url, domain⟩

/-- `non_arxiv = [c for c in candidates if c["domain"] != "arxiv.org"]` (line 152). -/
def nonArxivOf (candidates : List Cand) : List Cand :=
  candidates.filter (fun c => c.domain ≠ "arxiv.org")

/-- `filtered = non_arxiv if non_arxiv else candidates` (line 153). -/
def filteredOf (candidates : List Cand) : List Cand :=
  if nonArxivOf candidates = [] then candidates else nonArxivOf candidates

/-- Annotate one candidate with its priority and stable-hash tie-break,
with `seed = str(cluster_id)` (lines 155-158). -/
def annotateCand (clusterId : Nat) (c : Cand) : ACand :=
  ⟨c.url, c.domain, link_priority c.domain, stable_hash c.url (toString clusterId)⟩

/-- The comparison realising `sorted(filtered, key=lambda c: (-c["priority"], c["tie"]))`:
ascending lexicographic order on `(-priority, tie)`. -/
def linkLE (a b : ACand) : Bool :=
  decide (b.priority < a.priority) || (decide (a.priority = b.priority) && decide (a.tie ≤ b.tie))

/-- The sorted candidate list `ordered` of `_select_cluster_links` (line 160). -/
def orderedCandidates (clusterId : Nat) (items : List LinkItem) : List ACand :=
  ((filteredOf (buildCandidates items)).map (annotateCand clusterId)).mergeSort linkLE

/-- First loop of `_select_evidence_links` (lines 111-119): walk candidates,
skipping urls already taken and domains already seen, stopping at `min_count`. -/
def evLoop1 (minCount : Nat) : List ACand → List String → List String → List String
  | [], evidence, _ => evidence
  | c :: cs, evidence, seenDomains =>
    if c.url ∈ evidence then evLoop1 minCount cs evidence seenDomains
    else if c.domain ∈ seenDomains then evLoop1 minCount cs evidence seenDomains
    else
      let evidence' := evidence ++ [c.url]
      if minCount ≤ evidence'.length then evidence'
      else evLoop1 minCount cs evidence' (seenDomains ++ [c.domain])

/-- Second loop of `_select_evidence_links` (lines 121-127): backfill with
remaining candidates regardless of domain repetition, stopping at `min_count`. -/
def evLoop2 (minCount : Nat) : List ACand → List String → List String
  | [], evidence => evidence
  | c :: cs, evidence =>
    if c.url ∈ evidence then evLoop2 minCount cs evidence
    else
      let evidence' := evidence ++ [c.url]
      if minCount ≤ evidence'.length then evidence'
      else evLoop2 minCount cs evidence'

/-- `_select_evidence_links(candidates, min_count, max_count)` (lines 107-129). -/
def select_evidence_links (candidates : List ACand) (minCount maxCount : Nat) : List String :=
  let evidence := evLoop1 minCount candidates [] []
  let evidence' := if evidence.length < minCount then evLoop2 minCount candidates evidence else evidence
  evidence'.take maxCount

/-- The priority label dict `{4: "official", 3: "code_or_paper", 2: "authority",
1: "community"}.get(p, "community")` (lines 165-170). -/
def priorityLabel (p : Nat) : String :=
  if p = 4 then "official"
  else if p = 3 then "code_or_paper"
  else if p = 2 then "authority"
  else if p = 1 then "community"
  else "community"

/-- `_select_cluster_links(cluster_id, items)` (lines 131-183). -/
def select_cluster_links (clusterId : Nat) (items : List LinkItem) : LinkResult :=
  let candidates := buildCandidates items
  if candidates = [] then
    ⟨"", [], ⟨0, false, none, none⟩⟩
  else
    let ordered := orderedCandidates clusterId items
    let primary := (ordered.head?.map (·.url)).getD ""
    let evidence := select_evidence_links ordered 3 5
    let primaryDomain := (ordered.head?.map (·.domain)).getD ""
    let primaryPriority := (ordered.head?.map (·.priority)).getD 0
    ⟨primary, evidence,
     ⟨candidates.length, !(nonArxivOf candidates).isEmpty,
      some primaryDomain, some (priorityLabel primaryPriority)⟩⟩

/-! ### Value signals (ranker/news.py lines 15-35 and 192-206) -/

/-- `_normalize_text`: `(text or "").strip().lower()`. -/
def normalize_text (text : String) : String :=
  pyLower (pyStrip text)

/-- The `VALUE_SIGNALS` table, in source (insertion) order:
`name ↦ (weight, keywords)`. -/
def VALUE_SIGNALS : List (String × ℚ × List String) :=
  [("monetization", (7/2, ["变现", "赚钱", "盈利", "营收", "订阅", "付费", "价格", "pricing",
      "revenue", "monetiz", "roi"])),
   ("productivity", (3, ["效率", "自动化", "workflow", "agent", "copilot", "节省时间",
      "降本", "提效", "automation"])),
   ("learning", (5/2, ["学习", "教程", "课程", "指南", "教学", "education", "guide",
      "tutorial", "course"])),
   ("consumer_value", (5/2, ["工具", "app", "应用", "插件", "个人", "家庭", "生活", "体验",
      "product", "tool", "assistant", "开源", "open-source", "open source", "免费", "free"])),
   ("safety_compliance", (2, ["安全", "隐私", "合规", "security", "privacy", "compliance",
      "风险", "审计"])),
   ("business_enablement", (2, ["商业", "创业", "客户", "企业", "b2b", "go-to-market",
      "gtm", "growth"]))]

/-- Python substring test `k in text`, on code-point lists. -/
def strContains (text k : String) : Bool :=
  decide (k.data <:+: text.data)

/-- `any(k in normalized for k in keywords)`: whether a signal category
fires on (already normalized) text. -/
def categoryFires (normalized : String) (entry : String × ℚ × List String) : Bool :=
  entry.2.2.any (fun k => strContains normalized k)

/-- `_value_score(text)` (lines 192-198). -/
def value_score (text : String) : ℚ :=
  VALUE_SIGNALS.foldl
    (fun score e => if categoryFires (normalize_text text) e then score + e.2.1 else score) 0

/-- `_value_signals(text)` (lines 200-206). -/
def value_signals (text : String) : List String :=
  VALUE_SIGNALS.foldl
    (fun signals e => if categoryFires (normalize_text text) e then signals ++ [e.1] else signals) []

/-! ### Cluster assigner (`cluster_news`, ranker/news.py lines 208-284)

The per-item assignment loop is embedded as explicit state passing.  The
similarity function (`rapidfuzz.fuzz.token_set_ratio`, an external library)
is a parameter `sim`; scores and the threshold are rationals.  The database
is the pair of the `clusters` table and the item→cluster assignments
written by the `UPDATE items SET cluster_id` statements; `nextId` stands
for the serial primary key of `clusters`. -/

/-- An unclustered item row: `(id, title, COALESCE(published_at, fetched_at))`. -/
structure NewsItem where
  id : Nat
  title : String
  ts : ℤ
deriving DecidableEq

/-- An in-memory active cluster `{'id': ..., 'title': ...}` (line 220). -/
structure ClusterRef where
  id : Nat
  title : String
deriving DecidableEq

/-- A `clusters` table row (the columns `cluster_news` writes). -/
structure ClusterRow where
  id : Nat
  title : String
  firstSeen : ℤ
  lastSeen : ℤ
deriving DecidableEq

/-- The mutable state of a `cluster_news` pass. -/
structure NewsDB where
  clusters : List ClusterRow
  itemCluster : List (Nat × Nat)
  nextId : Nat
deriving DecidableEq

/-- The best-match loop (lines 234-243): fold over the active clusters,
keeping the first cluster whose score strictly exceeds the best so far
(initially `best_match = None`, `best_score = 0`). -/
def bestMatch (sim : String → String → ℚ) (title : String) (active : List ClusterRef) :
    Option ClusterRef × ℚ :=
  active.foldl
    (fun acc c =>
      let score := sim title c.title
      if acc.2 < score then (some c, score) else acc)
    (none, 0)

/-- The highest similarity score of `title` against the active clusters
(0 when there are none). -/
def maxScoreOf (sim : String → String → ℚ) (title : String) (active : List ClusterRef) : ℚ :=
  active.foldl (fun m c => max m (sim title c.title)) 0

/-- Creating a new cluster (lines 250-265): insert a row with
`first_seen_at = last_seen_at = item.ts`, assign the item to it, and append
it to the in-memory active list. -/
def createCluster (db : NewsDB) (active : List ClusterRef) (item : NewsItem) :
    NewsDB × List ClusterRef :=
  let cid := db.nextId
  (⟨db.clusters ++ [⟨cid, item.title, item.ts, item.ts⟩],
    db.itemCluster ++ [(item.id, cid)],
    cid + 1⟩,
   active ++ [⟨cid, item.title⟩])

/-- Processing one item of the `cluster_news` loop (lines 234-265):
`if best_match and best_score >= similarity_threshold` assign to the best
match and `UPDATE clusters SET last_seen_at = GREATEST(last_seen_at, ts)`;
otherwise create a new cluster. -/
def assignItem (sim : String → String → ℚ) (threshold : ℚ)
    (st : NewsDB × List ClusterRef) (item : NewsItem) : NewsDB × List ClusterRef :=
  match bestMatch sim item.title st.2 with
  | (some c, bs) =>
    if threshold ≤ bs then
      (⟨(st.1.clusters.map fun r =>
           if r.id = c.id then { r with lastSeen := max r.lastSeen item.ts } else r),
        st.1.itemCluster ++ [(item.id, c.id)],
        st.1.nextId⟩,
       st.2)
    else createCluster st.1 st.2 item
  | (none, _) => createCluster st.1 st.2 item

/-- The whole per-item loop of `cluster_news` over the fetched items, in
fetch order (`ORDER BY ts DESC`). -/
def clusterNewsLoop (sim : String → String → ℚ) (threshold : ℚ)
    (items : List NewsItem) (st : NewsDB × List ClusterRef) : NewsDB × List ClusterRef :=
  items.foldl (assignItem sim threshold) st

/-- `SIMILARITY_THRESHOLD = 70.0` (ranker/news.py line 13). -/
def SIMILARITY_THRESHOLD : ℚ := 70

/-! ### Cluster scorer (`score_clusters`, ranker/news.py lines 286-359) -/

/-- `_window_hours` (lines 185-190): `max(int(hours), 6)` (the non-integer
fallback to 72 cannot arise for an integer input). -/
def window_hours (hours : ℤ) : ℤ := max hours 6

/-- A member item row as fetched for scoring:
`(title, summary, COALESCE(domain, source), COALESCE(published_at, fetched_at))`. -/
structure ScoreItem where
  title : String
  summary : Option String
  src : Option String
  ts : ℤ
deriving DecidableEq

/-- A `user_feedback` row. -/
structure FeedbackRow where
  topicKind : String
  topicRefId : Nat
  label : String
  createdAt : ℤ
deriving DecidableEq

/-- The 30-day feedback `GROUP BY label` count for one label
(lines 328-336 of news.py; the SQL window is `NOW() - INTERVAL '30 DAYS'`). -/
def feedbackCount (rows : List FeedbackRow) (kind : String) (refId : Nat) (now : ℤ)
    (label : String) : Nat :=
  (rows.filter fun r =>
    decide (r.topicKind = kind ∧ r.topicRefId = refId ∧
      now - 30 * 86400 < r.createdAt ∧ r.label = label)).length

/-- `feedback_score = useful*2.0 - useless*2.0 - skip*5.0` (lines 337-341),
with absent labels counting 0. -/
def feedbackScoreOf (rows : List FeedbackRow) (kind : String) (refId : Nat) (now : ℤ) : ℚ :=
  (feedbackCount rows kind refId now "useful" : ℚ) * 2
    - (feedbackCount rows kind refId now "useless" : ℚ) * 2
    - (feedbackCount rows kind refId now "skip" : ℚ) * 5

/-- `sources = set(i[2] for i in items if i[2])` (line 309): the distinct
truthy source strings. -/
def distinctSources (items : List ScoreItem) : List String :=
  ((items.filterMap (·.src)).filter (fun s => s ≠ "")).dedup

/-- `" ".join(f"{i[0]} {i[1] or ''}" for i in items)` (line 317). -/
def textBlob (items : List ScoreItem) : String :=
  String.intercalate " " (items.map fun i => i.title ++ " " ++ i.summary.getD "")

/-- `hours_since = max(0.0, (now - last_seen).total_seconds()/3600.0)` (line 324). -/
def hoursSince (now lastSeen : ℤ) : ℚ :=
  max 0 ((now - lastSeen : ℤ) / (3600 : ℚ))

/-- `freshness_score = max(0.0, (window_hours - hours_since)/window_hours)` (line 325). -/
def freshnessScore (w : ℤ) (hSince : ℚ) : ℚ :=
  max 0 (((w : ℚ) - hSince) / (w : ℚ))

/-- The `meta` explainability dict persisted per cluster (lines 347-356). -/
structure ClusterMeta where
  valueSignalNames : List String
  valueScoreQ : ℚ
  sourceCount : Nat
  sourceQuality : String
  itemCount : Nat
  freshnessQ : ℚ
  feedbackQ : ℚ
deriving DecidableEq

/-- The per-cluster body of `score_clusters` (lines 300-358): given the
already-`_window_hours`-normalised window `w`, the clock `now`, one cluster
row `(cid, first_seen_at, last_seen_at)`, its member items and the feedback
table, produce the persisted `(score, meta)`; `none` when the cluster has
no items (the `continue` at line 305-306). -/
def scoreCluster (w : ℤ) (now : ℤ) (cid : Nat) (firstSeen lastSeen : Option ℤ)
    (items : List ScoreItem) (feedback : List FeedbackRow) : Option (ℚ × ClusterMeta) :=
  if items.length = 0 then none
  else
    let srcs := distinctSources items
    let sourceCount := srcs.length
    let officialCount := (srcs.filter (fun s => decide (s ∈ OFFICIAL_DOMAINS))).length
    let sourceQuality :=
      if 0 < officialCount then (if officialCount < sourceCount then "mixed" else "official")
      else "community"
    let blob := textBlob items
    let vScore := value_score blob
    let vSignals := value_signals blob
    let lastSeenVal := ((lastSeen.orElse fun _ => firstSeen).getD now)
    let fresh := freshnessScore w (hoursSince now lastSeenVal)
    let fbScore := feedbackScoreOf feedback "news" cid now
    let score := (items.length : ℚ) * 1 + (sourceCount : ℚ) * 2 + vScore * 5
      + fresh * 3 + fbScore
    some (score, ⟨vSignals, vScore, sourceCount, sourceQuality, items.length, fresh, fbScore⟩)

/-! ### Repo scorer (`ranker/repo.py`) -/

/-- `calculate_repo_score(repo, snapshot_24h_ago)` (repo.py lines 6-36).
`snap` is the `stars` entry of the snapshot dict, `none` when the dict is
`None` (in which case the code uses `stars_then = 0`);
`days_since_push = (now - last_pushed).days` is Python floor division. -/
noncomputable def calculate_repo_score (stars openIssues : ℤ) (lastPushed now : ℤ)
    (snap : Option ℤ) : ℝ :=
  let starsThen : ℤ := match snap with | some s => s | none => 0
  let deltaStars := stars - starsThen
  let daysSincePush := Int.fdiv (now - lastPushed) 86400
  let freshnessFactor := 1 / Real.sqrt (max daysSincePush 1 : ℤ)
  ((deltaStars : ℝ) * 2.0 + (stars : ℝ) * 0.01) * freshnessFactor
    + (min openIssues 50 : ℤ) * 0.1

/-- The snapshot dict `get_top_repos` passes to `calculate_repo_score`
(repo.py lines 91-101): the most recent 20-30h-old snapshot's star count
when one exists, otherwise `{'stars': repo['stars']}` (zero delta). -/
def snapshot24hStars (stars : ℤ) (snap : Option ℤ) : ℤ :=
  snap.getD stars

/-- `repo['delta_24h'] = repo['stars'] - snapshot_24h['stars']` (repo.py line 106). -/
def repoDelta24h (stars : ℤ) (snap : Option ℤ) : ℤ :=
  stars - snapshot24hStars stars snap

/-- The pre-feedback score `get_top_repos` computes for one repo
(repo.py line 103). -/
noncomputable def repoScorePreFeedback (stars openIssues lastPushed now : ℤ)
    (snap : Option ℤ) : ℝ :=
  calculate_repo_score stars openIssues lastPushed now (some (snapshot24hStars stars snap))

/-! ### Backfill controller (`get_top_clusters_with_backfill`,
ranker/news.py lines 457-478)

`cluster_news`, `score_clusters` and `get_top_clusters` act on the
database; here they are abstract parameters over an abstract store type
`σ`, and the loop structure is embedded exactly: each step multiplies the
window by `max(1, multiplier)`, lowers the threshold to
`max(30.0, threshold - step)`, reruns clustering and scoring, and stops as
soon as the target count is reached or the step budget is exhausted. -/

section Backfill

variable {σ : Type} {α : Type}

/-- The `while stepCount < max_steps` loop of `get_top_clusters_with_backfill`
(lines 466-476), with the remaining step budget as fuel. -/
def backfillGo (clusterNewsF : σ → ℤ → ℚ → σ) (scoreClustersF : σ → ℤ → σ)
    (getTopF : σ → ℕ → ℤ → List α) (limit : ℕ) (mult : ℤ) (step : ℚ) :
    ℕ → σ → ℤ → ℚ → List α → List α
  | 0, _, _, _, results => results
  | fuel + 1, s, w, th, _ =>
    let w' := w * max 1 mult
    let th' := max 30 (th - step)
    let s' := scoreClustersF (clusterNewsF s w' th') w'
    let results' := getTopF s' limit w'
    if limit ≤ results'.length then results'
    else backfillGo clusterNewsF scoreClustersF getTopF limit mult step fuel s' w' th' results'

/-- `get_top_clusters_with_backfill` (lines 457-478): run `get_top_clusters`
once at the base window; return immediately if the target is reached, else
enter the widening loop with threshold starting at `SIMILARITY_THRESHOLD`. -/
def get_top_clusters_with_backfill (clusterNewsF : σ → ℤ → ℚ → σ) (scoreClustersF : σ → ℤ → σ)
    (getTopF : σ → ℕ → ℤ → List α) (limit : ℕ) (mult : ℤ) (step : ℚ) (maxSteps : ℕ)
    (windowHours0 : ℤ) (s0 : σ) : List α :=
  let results0 := getTopF s0 limit windowHours0
  if limit ≤ results0.length then results0
  else backfillGo clusterNewsF scoreClustersF getTopF limit mult step maxSteps
    s0 windowHours0 SIMILARITY_THRESHOLD results0

/-- The window after `k` widening steps. -/
def windowAfter (mult : ℤ) (windowHours0 : ℤ) : ℕ → ℤ
  | 0 => windowHours0
  | k + 1 => windowAfter mult windowHours0 k * max 1 mult

/-- The similarity threshold used by widening step `k` (for `k ≥ 1`). -/
def thresholdAfter (step : ℚ) : ℕ → ℚ
  | 0 => SIMILARITY_THRESHOLD
  | k + 1 => max 30 (thresholdAfter step k - step)

/-- The abstract store after `k` widening steps. -/
def stateAfter (clusterNewsF : σ → ℤ → ℚ → σ) (scoreClustersF : σ → ℤ → σ)
    (mult : ℤ) (step : ℚ) (windowHours0 : ℤ) (s0 : σ) : ℕ → σ
  | 0 => s0
  | k + 1 =>
    let s := stateAfter clusterNewsF scoreClustersF mult step windowHours0 s0 k
    let w' := windowAfter mult windowHours0 (k + 1)
    scoreClustersF (clusterNewsF s w' (thresholdAfter step (k + 1))) w'

/-- The `get_top_clusters` result visible after `k` widening steps
(`k = 0` is the initial query). -/
def resultsAfter (clusterNewsF : σ → ℤ → ℚ → σ) (scoreClustersF : σ → ℤ → σ)
    (getTopF : σ → ℕ → ℤ → List α) (limit : ℕ) (mult : ℤ) (step : ℚ)
    (windowHours0 : ℤ) (s0 : σ) (k : ℕ) : List α :=
  getTopF (stateAfter clusterNewsF scoreClustersF mult step windowHours0 s0 k) limit
    (windowAfter mult windowHours0 k)

end Backfill

/-! ### Dedup gate (`briefing/dedup.py`) -/

/-- A `briefs` table row (the columns the dedup query reads). -/
structure BriefRow where
  kind : String
  refId : ℤ
  createdAt : ℤ
deriving DecidableEq

/-- `getRecentBriefRefIds(settings, kind, ref_ids, hours)` (dedup.py lines
6-18), with the `briefs` table and the clock as explicit inputs: empty
input or non-positive `hours` short-circuits to the empty set; otherwise
the set of `ref_id`s of briefs of this kind among `refIds` created within
the trailing `hours` window. -/
def getRecentBriefRefIds (briefs : List BriefRow) (now : ℤ) (kind : String)
    (refIds : List ℤ) (hours : ℤ) : Finset ℤ :=
  if refIds = [] ∨ hours ≤ 0 then ∅
  else
    ((briefs.filter fun b =>
        decide (b.kind = kind ∧ b.refId ∈ refIds ∧ now - hours * 3600 < b.createdAt)).map
      (·.refId)).toFinset

/-! ## Helper lemmas -/

/-- `_value_score`'s fold over any suffix of the table, from any accumulator. -/
theorem value_score_foldl (n : String) (L : List (String × ℚ × List String)) :
    ∀ acc : ℚ,
      L.foldl (fun score e => if categoryFires n e then score + e.2.1 else score) acc
        = acc + ((L.filter (categoryFires n)).map (fun e => e.2.1)).sum := by
  induction L with
  | nil => simp
  | cons e L ih =>
    intro acc
    by_cases h : categoryFires n e <;> simp [h, ih, add_assoc]

/-- `_value_signals`'s fold over any suffix of the table, from any accumulator. -/
theorem value_signals_foldl (n : String) (L : List (String × ℚ × List String)) :
    ∀ acc : List String,
      L.foldl (fun signals e => if categoryFires n e then signals ++ [e.1] else signals) acc
        = acc ++ (L.filter (categoryFires n)).map (fun e => e.1) := by
  induction L with
  | nil => simp
  | cons e L ih =>
    intro acc
    by_cases h : categoryFires n e <;> simp [h, ih]

/-- The weight the `VALUE_SIGNALS` table gives a category name (0 for an
unknown name). -/
def signalWeight (name : String) : ℚ :=
  ((VALUE_SIGNALS.find? (fun e => e.1 == name)).map (fun e => e.2.1)).getD 0

/-- Looking a table entry's own name back up returns its weight (the six
category names are pairwise distinct). -/
theorem signalWeight_of_mem :
    ∀ e ∈ VALUE_SIGNALS, signalWeight e.1 = e.2.1 := by with_unfolding_all decide

/-- Two `VALUE_SIGNALS` entries with the same name have the same keyword
list (the six category names are pairwise distinct). -/
theorem value_signals_names_distinct :
    ∀ e ∈ VALUE_SIGNALS, ∀ e' ∈ VALUE_SIGNALS, e.1 = e'.1 → e.2.2 = e'.2.2 := by
  with_unfolding_all decide

/-! ## Claim theorems -/

/-- C1: `_select_cluster_links` is a pure function of the cluster id and the
candidate list — two calls with the same arguments return the identical
result — and the within-tier tie-break annotated on every candidate is
`_stable_hash(url, str(cluster_id))`, a function of `(cluster_id, url)`
only. -/
theorem select_links_deterministic (clusterId : Nat) (items : List LinkItem) (c : Cand) :
    select_cluster_links clusterId items = select_cluster_links clusterId items
    ∧ (annotateCand clusterId c).tie = stable_hash c.url (toString clusterId) :=
  ⟨rfl, rfl⟩

/-- C4: the persisted cluster score equals
`item_count*1.0 + distinct_source_count*2.0 + value_score*5.0 +
freshness_score*3.0 + feedback_score`, where `feedback_score` is
`useful*2 - useless*2 - skip*5` over the 30-day feedback rows keyed to the
cluster id. -/
theorem cluster_score_formula (w now : ℤ) (cid : Nat) (firstSeen lastSeen : Option ℤ)
    (items : List ScoreItem) (feedback : List FeedbackRow) (h : items ≠ []) :
    (scoreCluster w now cid firstSeen lastSeen items feedback).map Prod.fst
      = some ((items.length : ℚ) * 1
          + ((distinctSources items).length : ℚ) * 2
          + value_score (textBlob items) * 5
          + freshnessScore w (hoursSince now ((lastSeen.orElse fun _ => firstSeen).getD now)) * 3
          + ((feedbackCount feedback "news" cid now "useful" : ℚ) * 2
              - (feedbackCount feedback "news" cid now "useless" : ℚ) * 2
              - (feedbackCount feedback "news" cid now "skip" : ℚ) * 5)) := by
  have hlen : ¬ items.length = 0 := fun hl => h (List.length_eq_zero.mp hl)
  simp only [scoreCluster, hlen, if_false, Option.map_some', feedbackScoreOf]

/-- C4 witness: one item from one source, one 30-day `useful` feedback row,
zero value signals and full freshness score `1*1 + 1*2 + 0*5 + 1*3 + 2 = 8`. -/
theorem cluster_score_formula_witness :
    (scoreCluster 72 0 1 none (some 0)
        [⟨"x", none, some "a.com", 0⟩] [⟨"news", 1, "useful", -100⟩]).map Prod.fst
      = some 8 :=
  (cluster_score_formula 72 0 1 none (some 0)
      [⟨"x", none, some "a.com", 0⟩] [⟨"news", 1, "useful", -100⟩]
      (List.cons_ne_nil _ _)).trans (by with_unfolding_all decide)

/-- C5: `freshness_score = max(0, (window_hours - hours_since)/window_hours)`:
it is 1 at zero elapsed hours, 0 at exactly `window_hours`, 0 (never
negative) beyond the window, and nonnegative everywhere. -/
theorem freshness_linear_clamped (hours : ℤ) (t : ℚ) :
    freshnessScore (window_hours hours) 0 = 1
    ∧ freshnessScore (window_hours hours) ((window_hours hours : ℤ) : ℚ) = 0
    ∧ (((window_hours hours : ℤ) : ℚ) ≤ t → freshnessScore (window_hours hours) t = 0)
    ∧ 0 ≤ freshnessScore (window_hours hours) t
    ∧ freshnessScore (window_hours hours) t
        = max 0 ((((window_hours hours : ℤ) : ℚ) - t) / ((window_hours hours : ℤ) : ℚ)) := by
  have h6 : (6 : ℤ) ≤ window_hours hours := le_max_right _ _
  have hw : (0 : ℚ) < ((window_hours hours : ℤ) : ℚ) := by
    have : (0 : ℤ) < window_hours hours := lt_of_lt_of_le (by norm_num) h6
    exact_mod_cast this
  refine ⟨?_, ?_, ?_, le_max_left _ _, rfl⟩
  · simp [freshnessScore, div_self (ne_of_gt hw)]
  · simp [freshnessScore]
  · intro ht
    have hnum : (((window_hours hours : ℤ) : ℚ) - t) / ((window_hours hours : ℤ) : ℚ) ≤ 0 :=
      div_nonpos_of_nonpos_of_nonneg (by linarith) (le_of_lt hw)
    simpa [freshnessScore] using max_eq_left hnum

/-- C6: with no snapshot in the 20-30h window, the repo scorer uses a 24h-ago
star count equal to the current one, so `delta_24h = 0` and the pre-feedback
score is `(0*2.0 + stars*0.01) * (1/sqrt(max(days_since_push, 1))) +
min(open_issues, 50)*0.1`; in particular stars=1000, open_issues=60,
days_since_push=4 scores exactly 10. -/
theorem repo_score_no_snapshot (stars openIssues lastPushed now : ℤ) :
    repoScorePreFeedback stars openIssues lastPushed now none
      = ((0 : ℝ) * 2.0 + (stars : ℝ) * 0.01)
          * (1 / Real.sqrt ((max (Int.fdiv (now - lastPushed) 86400) 1 : ℤ) : ℝ))
          + ((min openIssues 50 : ℤ) : ℝ) * 0.1
    ∧ repoDelta24h stars none = 0
    ∧ repoScorePreFeedback 1000 60 0 (4 * 86400) none = 10 := by
  refine ⟨?_, by simp [repoDelta24h, snapshot24hStars], ?_⟩
  · simp only [repoScorePreFeedback, calculate_repo_score, snapshot24hStars, Option.getD_none]
    ring_nf
  · have hd : Int.fdiv (4 * 86400 - 0) 86400 = 4 := by decide
    have hs : Real.sqrt (((max (4 : ℤ) 1 : ℤ) : ℝ)) = 2 := by
      have : ((max (4 : ℤ) 1 : ℤ) : ℝ) = 2 ^ 2 := by norm_num
      rw [this, Real.sqrt_sq (by norm_num : (0 : ℝ) ≤ 2)]
    simp only [repoScorePreFeedback, calculate_repo_score, snapshot24hStars, Option.getD_none, hd]
    rw [hs]
    norm_num

/-- C8: the dedup gate returns the empty set immediately when the ref-id list
is empty or `hours` is non-positive, regardless of the persisted briefs. -/
theorem dedup_fast_path (briefs : List BriefRow) (now : ℤ) (kind : String)
    (refIds : List ℤ) (hours : ℤ) (h : refIds = [] ∨ hours ≤ 0) :
    getRecentBriefRefIds briefs now kind refIds hours = ∅ := by
  simp [getRecentBriefRefIds, h]

/-- C8 witness: `recently_published("news", [], 24)` is empty, and a zero-hour
window is empty even with matching persisted briefs. -/
theorem dedup_fast_path_witness :
    getRecentBriefRefIds [⟨"news", 1, 0⟩] 0 "news" [] 24 = ∅
    ∧ getRecentBriefRefIds [⟨"news", 7, -10⟩, ⟨"repo", 3, -5⟩] 0 "news" [7, 3] 0 = ∅ :=
  ⟨dedup_fast_path _ _ _ _ _ (Or.inl rfl), dedup_fast_path _ _ _ _ _ (Or.inr le_rfl)⟩

/-- C10: `_value_score` and `_value_signals` agree: the score is the sum of
the weights of exactly the reported signal categories, the reported list is
the table filtered by whether a category fires, and a category fires iff one
of its keywords is a substring of the lowercased stripped text. -/
theorem value_score_matches_signals (text : String) :
    value_score text = ((value_signals text).map signalWeight).sum
    ∧ value_signals text
        = (VALUE_SIGNALS.filter (categoryFires (normalize_text text))).map (fun e => e.1)
    ∧ (∀ e ∈ VALUE_SIGNALS,
        (e.1 ∈ value_signals text
          ↔ ∃ k ∈ e.2.2, k.data <:+: (normalize_text text).data)) := by
  have hsig : value_signals text
      = (VALUE_SIGNALS.filter (categoryFires (normalize_text text))).map (fun e => e.1) := by
    simpa using value_signals_foldl (normalize_text text) VALUE_SIGNALS []
  refine ⟨?_, hsig, ?_⟩
  · have hsc := value_score_foldl (normalize_text text) VALUE_SIGNALS 0
    rw [value_score, hsc, zero_add, hsig, List.map_map]
    refine congrArg List.sum (List.map_congr_left fun e he => ?_).symm
    exact signalWeight_of_mem e (List.mem_filter.mp he).1
  · intro e he
    rw [hsig]
    constructor
    · rintro hmem
      obtain ⟨e', he', heq⟩ := List.mem_map.mp hmem
      have he'f := List.mem_filter.mp he'
      have hkw := value_signals_names_distinct e' he'f.1 e he heq
      obtain ⟨k, hk, hkin⟩ := List.any_eq_true.mp he'f.2
      rw [hkw] at hk
      simp only [strContains] at hkin
      exact ⟨k, hk, of_decide_eq_true hkin⟩
    · rintro ⟨k, hk, hkin⟩
      refine List.mem_map.mpr ⟨e, List.mem_filter.mpr ⟨he, ?_⟩, rfl⟩
      refine List.any_eq_true.mpr ⟨k, hk, ?_⟩
      simp only [strContains]
      exact decide_eq_true hkin

/-- C10 witness: on `"Free tutorial"` the learning and consumer-value
categories fire and the score is the sum of the reported categories'
weights. -/
theorem value_score_matches_signals_witness :
    value_score "Free tutorial" = ((value_signals "Free tutorial").map signalWeight).sum
    ∧ "learning" ∈ value_signals "Free tutorial" :=
  ⟨(value_score_matches_signals "Free tutorial").1,
    ((value_score_matches_signals "Free tutorial").2.2
        ("learning", (5/2, ["学习", "教程", "课程", "指南", "教学", "education", "guide",
          "tutorial", "course"])) (by with_unfolding_all decide)).mpr
      ⟨"tutorial", by with_unfolding_all decide, by with_unfolding_all decide⟩⟩

section BackfillProofs

variable {σ α : Type}

/-- Unfolding the backfill loop against the step-indexed iterates: starting
at widening step `k` with fewer results than the target, the loop runs some
`m ≤ fuel` further steps, every intermediate result stays under the target,
and it stops early only once the target is reached. -/
theorem backfillGo_spec (cf : σ → ℤ → ℚ → σ) (sf : σ → ℤ → σ) (gf : σ → ℕ → ℤ → List α)
    (limit : ℕ) (mult : ℤ) (step : ℚ) (w0 : ℤ) (s0 : σ) :
    ∀ (fuel k : ℕ), (resultsAfter cf sf gf limit mult step w0 s0 k).length < limit →
      ∃ m, m ≤ fuel
        ∧ backfillGo cf sf gf limit mult step fuel (stateAfter cf sf mult step w0 s0 k)
            (windowAfter mult w0 k) (thresholdAfter step k)
            (resultsAfter cf sf gf limit mult step w0 s0 k)
          = resultsAfter cf sf gf limit mult step w0 s0 (k + m)
        ∧ (∀ j, k ≤ j → j < k + m →
            (resultsAfter cf sf gf limit mult step w0 s0 j).length < limit)
        ∧ (limit ≤ (resultsAfter cf sf gf limit mult step w0 s0 (k + m)).length ∨ m = fuel) := by
  intro fuel
  induction fuel with
  | zero =>
    intro k hk
    refine ⟨0, le_refl 0, ?_, fun j hj1 hj2 => absurd hj2 (by omega), Or.inr rfl⟩
    rw [Nat.add_zero]
    exact rfl
  | succ fuel ih =>
    intro k hk
    have hstep : backfillGo cf sf gf limit mult step (fuel + 1)
        (stateAfter cf sf mult step w0 s0 k) (windowAfter mult w0 k) (thresholdAfter step k)
        (resultsAfter cf sf gf limit mult step w0 s0 k)
      = if limit ≤ (resultsAfter cf sf gf limit mult step w0 s0 (k + 1)).length
          then resultsAfter cf sf gf limit mult step w0 s0 (k + 1)
          else backfillGo cf sf gf limit mult step fuel
            (stateAfter cf sf mult step w0 s0 (k + 1)) (windowAfter mult w0 (k + 1))
            (thresholdAfter step (k + 1))
            (resultsAfter cf sf gf limit mult step w0 s0 (k + 1)) := rfl
    by_cases hlim : limit ≤ (resultsAfter cf sf gf limit mult step w0 s0 (k + 1)).length
    · refine ⟨1, by omega, ?_, ?_, Or.inl hlim⟩
      · rw [hstep, if_pos hlim]
      · intro j hj1 hj2
        have hjk : j = k := by omega
        exact hjk ▸ hk
    · push_neg at hlim
      obtain ⟨m, hm, heq, hmid, hlast⟩ := ih (k + 1) hlim
      refine ⟨m + 1, by omega, ?_, ?_, ?_⟩
      · rw [hstep, if_neg (not_le.mpr hlim)]
        have hidx : k + 1 + m = k + (m + 1) := by omega
        rw [← hidx]
        exact heq
      · intro j hj1 hj2
        rcases eq_or_lt_of_le hj1 with rfl | hj1'
        · exact hk
        · exact hmid j (by omega) (by omega)
      · rcases hlast with h | h
        · left
          have hidx : k + 1 + m = k + (m + 1) := by omega
          rwa [hidx] at h
        · right
          omega

/-- C7: the backfill controller returns the results of some widening step
`k ≤ max_steps`: every earlier step was under the target, and it stops only
once the target is reached or the step budget is exhausted (returning
whatever was last computed); moreover each widening step\'s threshold is
`max(30.0, previous - step)`, hence never below 30.0. -/
theorem backfill_bounded_steps (cf : σ → ℤ → ℚ → σ) (sf : σ → ℤ → σ)
    (gf : σ → ℕ → ℤ → List α) (limit : ℕ) (mult : ℤ) (step : ℚ) (maxSteps : ℕ)
    (w0 : ℤ) (s0 : σ) :
    (∃ k, k ≤ maxSteps
      ∧ get_top_clusters_with_backfill cf sf gf limit mult step maxSteps w0 s0
          = resultsAfter cf sf gf limit mult step w0 s0 k
      ∧ (∀ j, j < k → (resultsAfter cf sf gf limit mult step w0 s0 j).length < limit)
      ∧ (limit ≤ (resultsAfter cf sf gf limit mult step w0 s0 k).length ∨ k = maxSteps))
    ∧ (∀ k, thresholdAfter step (k + 1) = max 30 (thresholdAfter step k - step))
    ∧ (∀ k, (30 : ℚ) ≤ thresholdAfter step (k + 1)) := by
  refine ⟨?_, fun k => rfl, fun k => le_max_left _ _⟩
  have hunfold : get_top_clusters_with_backfill cf sf gf limit mult step maxSteps w0 s0
      = if limit ≤ (gf s0 limit w0).length then gf s0 limit w0
        else backfillGo cf sf gf limit mult step maxSteps s0 w0 SIMILARITY_THRESHOLD
          (gf s0 limit w0) := rfl
  by_cases h0 : limit ≤ (gf s0 limit w0).length
  · refine ⟨0, Nat.zero_le _, ?_, fun j hj => absurd hj (Nat.not_lt_zero j), Or.inl h0⟩
    rw [hunfold, if_pos h0]
    rfl
  · push_neg at h0
    have h0' : (resultsAfter cf sf gf limit mult step w0 s0 0).length < limit := h0
    obtain ⟨m, hm, heq, hmid, hlast⟩ :=
      backfillGo_spec cf sf gf limit mult step w0 s0 maxSteps 0 h0'
    refine ⟨m, hm, ?_, fun j hj => hmid j (Nat.zero_le j) (by omega), ?_⟩
    · rw [hunfold, if_neg (not_le.mpr h0)]
      simpa using heq
    · simpa using hlast

end BackfillProofs

/-! ## Evidence-selection lemmas (for the link-selector claims) -/

/-- Phase 1 of `_select_evidence_links` never changes the head of a
nonempty accumulator (it only appends). -/
theorem evLoop1_head? (m : Nat) :
    ∀ (cs : List ACand) (ev seen : List String), ev ≠ [] →
      (evLoop1 m cs ev seen).head? = ev.head? := by
  intro cs
  induction cs with
  | nil => intro ev seen _; rfl
  | cons c cs ih =>
    intro ev seen hev
    simp only [evLoop1]
    by_cases h1 : c.url ∈ ev
    · rw [if_pos h1]; exact ih ev seen hev
    · rw [if_neg h1]
      by_cases h2 : c.domain ∈ seen
      · rw [if_pos h2]; exact ih ev seen hev
      · rw [if_neg h2]
        by_cases h3 : m ≤ (ev ++ [c.url]).length
        · rw [if_pos h3]
          cases ev with
          | nil => exact absurd rfl hev
          | cons a t => rfl
        · rw [if_neg h3, ih (ev ++ [c.url]) (seen ++ [c.domain]) (by simp)]
          cases ev with
          | nil => exact absurd rfl hev
          | cons a t => rfl

/-- Phase 2 of `_select_evidence_links` never changes the head of a
nonempty accumulator. -/
theorem evLoop2_head? (m : Nat) :
    ∀ (cs : List ACand) (ev : List String), ev ≠ [] →
      (evLoop2 m cs ev).head? = ev.head? := by
  intro cs
  induction cs with
  | nil => intro ev _; rfl
  | cons c cs ih =>
    intro ev hev
    simp only [evLoop2]
    by_cases h1 : c.url ∈ ev
    · rw [if_pos h1]; exact ih ev hev
    · rw [if_neg h1]
      by_cases h3 : m ≤ (ev ++ [c.url]).length
      · rw [if_pos h3]
        cases ev with
        | nil => exact absurd rfl hev
        | cons a t => rfl
      · rw [if_neg h3, ih (ev ++ [c.url]) (by simp)]
        cases ev with
        | nil => exact absurd rfl hev
        | cons a t => rfl

/-- On a nonempty candidate list with empty accumulators, phase 1 starts by
taking the first candidate's url as head. -/
theorem evLoop1_head_cons (m : Nat) (c : ACand) (cs : List ACand) :
    (evLoop1 m (c :: cs) [] []).head? = some c.url := by
  simp only [evLoop1]
  rw [if_neg (List.not_mem_nil _), if_neg (List.not_mem_nil _)]
  by_cases h3 : m ≤ (([] : List String) ++ [c.url]).length
  · rw [if_pos h3]; rfl
  · rw [if_neg h3, evLoop1_head? m cs ([] ++ [c.url]) ([] ++ [c.domain]) (by simp)]; rfl

/-- `take` keeps the head of a list. -/
theorem head?_take_five (l : List String) : (l.take 5).head? = l.head? := by
  cases l <;> rfl

/-- `_select_evidence_links` on a nonempty candidate list starts with the
first candidate's url. -/
theorem select_evidence_head (c : ACand) (cs : List ACand) :
    (select_evidence_links (c :: cs) 3 5).head? = some c.url := by
  have h1 : (evLoop1 3 (c :: cs) [] []).head? = some c.url := evLoop1_head_cons 3 c cs
  have hne : evLoop1 3 (c :: cs) [] [] ≠ [] := by
    intro h; rw [h] at h1; exact Option.noConfusion h1
  simp only [select_evidence_links]
  by_cases h2 : (evLoop1 3 (c :: cs) [] []).length < 3
  · rw [if_pos h2, head?_take_five, evLoop2_head? 3 (c :: cs) _ hne, h1]
  · rw [if_neg h2, head?_take_five, h1]

/-- Phase 1 keeps the evidence list duplicate-free. -/
theorem evLoop1_nodup (m : Nat) :
    ∀ (cs : List ACand) (ev seen : List String), ev.Nodup →
      (evLoop1 m cs ev seen).Nodup := by
  intro cs
  induction cs with
  | nil => intro ev seen h; exact h
  | cons c cs ih =>
    intro ev seen hnd
    simp only [evLoop1]
    by_cases h1 : c.url ∈ ev
    · rw [if_pos h1]; exact ih ev seen hnd
    · rw [if_neg h1]
      by_cases h2 : c.domain ∈ seen
      · rw [if_pos h2]; exact ih ev seen hnd
      · rw [if_neg h2]
        have hnd' : (ev ++ [c.url]).Nodup := by
          simp [List.nodup_append, hnd, h1]
        by_cases h3 : m ≤ (ev ++ [c.url]).length
        · rw [if_pos h3]; exact hnd'
        · rw [if_neg h3]; exact ih _ _ hnd'

/-- Phase 2 keeps the evidence list duplicate-free. -/
theorem evLoop2_nodup (m : Nat) :
    ∀ (cs : List ACand) (ev : List String), ev.Nodup →
      (evLoop2 m cs ev).Nodup := by
  intro cs
  induction cs with
  | nil => intro ev h; exact h
  | cons c cs ih =>
    intro ev hnd
    simp only [evLoop2]
    by_cases h1 : c.url ∈ ev
    · rw [if_pos h1]; exact ih ev hnd
    · rw [if_neg h1]
      have hnd' : (ev ++ [c.url]).Nodup := by
        simp [List.nodup_append, hnd, h1]
      by_cases h3 : m ≤ (ev ++ [c.url]).length
      · rw [if_pos h3]; exact hnd'
      · rw [if_neg h3]; exact ih _ hnd'

/-- `_select_evidence_links` never returns a url twice. -/
theorem select_evidence_nodup (cands : List ACand) :
    (select_evidence_links cands 3 5).Nodup := by
  simp only [select_evidence_links]
  have h1 : (evLoop1 3 cands [] []).Nodup := evLoop1_nodup 3 cands [] [] List.nodup_nil
  by_cases h2 : (evLoop1 3 cands [] []).length < 3
  · rw [if_pos h2]
    exact (List.take_sublist _ _).nodup (evLoop2_nodup 3 cands _ h1)
  · rw [if_neg h2]
    exact (List.take_sublist _ _).nodup h1

/-- The phase-1 invariant: when the candidate urls are pairwise distinct and
none is already in the accumulator, phase 1 appends the urls of a
subsequence of the candidates whose domains are pairwise distinct and not
previously seen; and either the minimum count was reached, or every
candidate's domain was already seen or got chosen. -/
theorem evLoop1_chosen (m : Nat) :
    ∀ (cs : List ACand) (ev seen : List String),
      (∀ c ∈ cs, c.url ∉ ev) → (cs.map (·.url)).Nodup →
      ∃ chosen : List ACand,
        chosen.Sublist cs
        ∧ evLoop1 m cs ev seen = ev ++ chosen.map (·.url)
        ∧ (chosen.map (·.domain)).Nodup
        ∧ (∀ c ∈ chosen, c.domain ∉ seen)
        ∧ (m ≤ (evLoop1 m cs ev seen).length
           ∨ ∀ c ∈ cs, c.domain ∈ seen ∨ c.domain ∈ chosen.map (·.domain)) := by
  intro cs
  induction cs with
  | nil =>
    intro ev seen _ _
    exact ⟨[], List.Sublist.refl _, by simp [evLoop1], List.nodup_nil, by simp,
      Or.inr (by simp)⟩
  | cons c cs ih =>
    intro ev seen hurl hnd
    have hcurl : c.url ∉ ev := hurl c (List.mem_cons_self c cs)
    have hnd2 : (c.url :: cs.map (·.url)).Nodup := by
      simp only [List.map_cons] at hnd
      exact hnd
    have hcnot : c.url ∉ cs.map (·.url) := (List.nodup_cons.mp hnd2).1
    have hndtail : (cs.map (·.url)).Nodup := (List.nodup_cons.mp hnd2).2
    by_cases h2 : c.domain ∈ seen
    · have hstep : evLoop1 m (c :: cs) ev seen = evLoop1 m cs ev seen := by
        simp only [evLoop1]
        rw [if_neg hcurl, if_pos h2]
      obtain ⟨chosen, hsub, heq, hdnd, hseen, hdisj⟩ :=
        ih ev seen (fun c' hc' => hurl c' (List.mem_cons_of_mem _ hc')) hndtail
      refine ⟨chosen, hsub.cons _, by rw [hstep]; exact heq, hdnd, hseen, ?_⟩
      rw [hstep]
      rcases hdisj with h | h
      · exact Or.inl h
      · refine Or.inr fun c' hc' => ?_
        rcases List.mem_cons.mp hc' with rfl | hc''
        · exact Or.inl h2
        · exact h c' hc''
    · have hev' : ∀ c' ∈ cs, c'.url ∉ ev ++ [c.url] := by
        intro c' hc'
        simp only [List.mem_append, List.mem_singleton]
        rintro (h | h)
        · exact hurl c' (List.mem_cons_of_mem _ hc') h
        · exact hcnot (h ▸ List.mem_map_of_mem _ hc')
      by_cases h3 : m ≤ (ev ++ [c.url]).length
      · have hstep : evLoop1 m (c :: cs) ev seen = ev ++ [c.url] := by
          simp only [evLoop1]
          rw [if_neg hcurl, if_neg h2, if_pos h3]
        refine ⟨[c], List.singleton_sublist.mpr (List.mem_cons_self c cs),
          by rw [hstep]; rfl, by simp, by simp [h2], Or.inl (by rw [hstep]; exact h3)⟩
      · have hstep : evLoop1 m (c :: cs) ev seen
            = evLoop1 m cs (ev ++ [c.url]) (seen ++ [c.domain]) := by
          simp only [evLoop1]
          rw [if_neg hcurl, if_neg h2, if_neg h3]
        obtain ⟨chosen, hsub, heq, hdnd, hseen, hdisj⟩ :=
          ih (ev ++ [c.url]) (seen ++ [c.domain]) hev' hndtail
        have hcdom : c.domain ∉ chosen.map (·.domain) := by
          intro hmem
          obtain ⟨c', hc', heq'⟩ := List.mem_map.mp hmem
          have hs := hseen c' hc'
          simp only [List.mem_append, List.mem_singleton] at hs
          exact hs (Or.inr heq')
        refine ⟨c :: chosen, hsub.cons₂ c, ?_, ?_, ?_, ?_⟩
        · rw [hstep, heq]
          simp
        · simp only [List.map_cons]
          exact List.nodup_cons.mpr ⟨hcdom, hdnd⟩
        · intro c' hc'
          rcases List.mem_cons.mp hc' with rfl | hc''
          · exact h2
          · intro hmem
            exact hseen c' hc'' (List.mem_append_left _ hmem)
        · rcases hdisj with h | h
          · left; rw [hstep]; exact h
          · right
            intro c' hc'
            rcases List.mem_cons.mp hc' with rfl | hc''
            · exact Or.inr (by simp)
            · rcases h c' hc'' with hs | hc3
              · simp only [List.mem_append, List.mem_singleton] at hs
                rcases hs with hs | hs
                · exact Or.inl hs
                · exact Or.inr (by simp [hs])
              · exact Or.inr (List.mem_cons_of_mem _ hc3)

/-- When the candidates have pairwise-distinct urls and at least `min_count`
distinct domains, `_select_evidence_links` returns the urls of a
subsequence of the candidates whose domains are pairwise distinct (the
domain-repeating backfill phase never runs). -/
theorem select_evidence_distinct_domains (cands : List ACand)
    (hurl : (cands.map (·.url)).Nodup)
    (hdom : 3 ≤ ((cands.map (·.domain)).dedup).length) :
    ∃ cs : List ACand, cs.Sublist cands
      ∧ select_evidence_links cands 3 5 = cs.map (·.url)
      ∧ (cs.map (·.domain)).Nodup := by
  obtain ⟨chosen, hsub, heq, hdnd, _, hdisj⟩ := evLoop1_chosen 3 cands [] [] (by simp) hurl
  have hchlen : (evLoop1 3 cands [] []).length = chosen.length := by rw [heq]; simp
  have hlen3 : 3 ≤ (evLoop1 3 cands [] []).length := by
    rcases hdisj with h | h
    · exact h
    · have hsubset : (cands.map (·.domain)).dedup ⊆ chosen.map (·.domain) := by
        intro d hd
        obtain ⟨c', hc', rfl⟩ := List.mem_map.mp (List.dedup_subset _ hd)
        rcases h c' hc' with hs | hs
        · exact absurd hs (List.not_mem_nil _)
        · exact hs
      have hle : ((cands.map (·.domain)).dedup).length ≤ (chosen.map (·.domain)).length :=
        ((List.nodup_dedup _).subperm hsubset).length_le
      have hml : (chosen.map (·.domain)).length = chosen.length := List.length_map _ _
      omega
  refine ⟨chosen.take 5, (List.take_sublist _ _).trans hsub, ?_, ?_⟩
  · simp only [select_evidence_links]
    rw [if_neg (not_lt.mpr hlen3), heq]
    simp [List.map_take]
  · rw [List.map_take]
    exact (List.take_sublist _ _).nodup hdnd

/-- C2 (amended): the evidence links are always duplicate-free; when any
candidate exists the primary link is the FIRST evidence link (it is
contained in the evidence list, not excluded from it); and when the sorted
candidates have pairwise-distinct urls and at least 3 distinct domains, the
evidence links come from candidates with pairwise-distinct domains. -/
theorem evidence_links_spec (clusterId : Nat) (items : List LinkItem) :
    ((select_cluster_links clusterId items).evidenceLinks).Nodup
    ∧ (buildCandidates items ≠ [] →
        ((select_cluster_links clusterId items).evidenceLinks).head?
          = some ((select_cluster_links clusterId items).primaryLink))
    ∧ (((orderedCandidates clusterId items).map (·.url)).Nodup →
        3 ≤ (((orderedCandidates clusterId items).map (·.domain)).dedup).length →
        ∃ cs : List ACand, cs.Sublist (orderedCandidates clusterId items)
          ∧ (select_cluster_links clusterId items).evidenceLinks = cs.map (·.url)
          ∧ (cs.map (·.domain)).Nodup) := by
  by_cases hc : buildCandidates items = []
  · have hord : orderedCandidates clusterId items = [] := by
      simp [orderedCandidates, filteredOf, nonArxivOf, hc]
    refine ⟨?_, fun h => absurd hc h, ?_⟩
    · simp [select_cluster_links, hc]
    · rw [hord]
      intro _ h3
      simp at h3
  · have hsel : select_cluster_links clusterId items
        = ⟨(((orderedCandidates clusterId items).head?.map (·.url)).getD ""),
           select_evidence_links (orderedCandidates clusterId items) 3 5,
           ⟨(buildCandidates items).length, !(nonArxivOf (buildCandidates items)).isEmpty,
            some (((orderedCandidates clusterId items).head?.map (·.domain)).getD ""),
            some (priorityLabel
              (((orderedCandidates clusterId items).head?.map (·.priority)).getD 0))⟩⟩ := by
      simp only [select_cluster_links]
      rw [if_neg hc]
    have hfil : filteredOf (buildCandidates items) ≠ [] := by
      simp only [filteredOf]
      by_cases hna : nonArxivOf (buildCandidates items) = []
      · rw [if_pos hna]; exact hc
      · rw [if_neg hna]; exact hna
    have hord : orderedCandidates clusterId items ≠ [] := by
      intro h
      have hp : (orderedCandidates clusterId items).Perm
          ((filteredOf (buildCandidates items)).map (annotateCand clusterId)) :=
        List.mergeSort_perm _ _
      rw [h] at hp
      exact hfil (List.map_eq_nil_iff.mp hp.symm.eq_nil)
    obtain ⟨a, tl, hcons⟩ : ∃ a tl, orderedCandidates clusterId items = a :: tl := by
      cases hx : orderedCandidates clusterId items with
      | nil => exact absurd hx hord
      | cons a tl => exact ⟨a, tl, rfl⟩
    refine ⟨?_, ?_, ?_⟩
    · rw [hsel]
      exact select_evidence_nodup _
    · intro _
      rw [hsel]
      simp only [hcons]
      rw [select_evidence_head a tl]
      rfl
    · intro hnd h3
      rw [hsel]
      exact select_evidence_distinct_domains (orderedCandidates clusterId items) hnd h3

/-- C2 counterexample: with the single candidate
`https://example.com/a`, the selected primary link IS contained in the
returned evidence links (the claim says it never is). -/
theorem evidence_contains_primary_cex :
    (select_cluster_links 5 [⟨some "https://example.com/a", none⟩]).primaryLink
      ∈ (select_cluster_links 5 [⟨some "https://example.com/a", none⟩]).evidenceLinks := by
  with_unfolding_all decide

/-- C9 (amended): the link-selection debug output records the candidate
count; its `filtered_arxiv` flag is true iff at least one candidate
SURVIVES the arxiv exclusion (not whether the exclusion removed anything);
and when any candidate exists it records the primary link's domain and the
human-readable label of the primary link's priority tier. -/
theorem link_debug_records (clusterId : Nat) (items : List LinkItem) :
    ((select_cluster_links clusterId items).debug.candidateCount
        = (buildCandidates items).length)
    ∧ ((select_cluster_links clusterId items).debug.filteredArxiv = true
        ↔ ∃ c ∈ buildCandidates items, c.domain ≠ "arxiv.org")
    ∧ (buildCandidates items ≠ [] →
        ∃ a tl, orderedCandidates clusterId items = a :: tl
          ∧ (select_cluster_links clusterId items).primaryLink = a.url
          ∧ (select_cluster_links clusterId items).debug.primaryDomain = some a.domain
          ∧ (select_cluster_links clusterId items).debug.primaryPriorityLabel
              = some (priorityLabel a.priority)) := by
  by_cases hc : buildCandidates items = []
  · refine ⟨by simp [select_cluster_links, hc], ?_, fun h => absurd hc h⟩
    simp [select_cluster_links, hc]
  · have hsel : select_cluster_links clusterId items
        = ⟨(((orderedCandidates clusterId items).head?.map (·.url)).getD ""),
           select_evidence_links (orderedCandidates clusterId items) 3 5,
           ⟨(buildCandidates items).length, !(nonArxivOf (buildCandidates items)).isEmpty,
            some (((orderedCandidates clusterId items).head?.map (·.domain)).getD ""),
            some (priorityLabel
              (((orderedCandidates clusterId items).head?.map (·.priority)).getD 0))⟩⟩ := by
      simp only [select_cluster_links]
      rw [if_neg hc]
    have hfil : filteredOf (buildCandidates items) ≠ [] := by
      simp only [filteredOf]
      by_cases hna : nonArxivOf (buildCandidates items) = []
      · rw [if_pos hna]; exact hc
      · rw [if_neg hna]; exact hna
    have hord : orderedCandidates clusterId items ≠ [] := by
      intro h
      have hp : (orderedCandidates clusterId items).Perm
          ((filteredOf (buildCandidates items)).map (annotateCand clusterId)) :=
        List.mergeSort_perm _ _
      rw [h] at hp
      exact hfil (List.map_eq_nil_iff.mp hp.symm.eq_nil)
    obtain ⟨a, tl, hcons⟩ : ∃ a tl, orderedCandidates clusterId items = a :: tl := by
      cases hx : orderedCandidates clusterId items with
      | nil => exact absurd hx hord
      | cons a tl => exact ⟨a, tl, rfl⟩
    refine ⟨by rw [hsel], ?_, ?_⟩
    · rw [hsel]
      constructor
      · intro hne
        have hne' : nonArxivOf (buildCandidates items) ≠ [] := by
          intro hnil
          rw [hnil] at hne
          simp at hne
        obtain ⟨c, hcmem⟩ := List.exists_mem_of_ne_nil _ hne'
        have hf := List.mem_filter.mp hcmem
        exact ⟨c, hf.1, by simpa using hf.2⟩
      · rintro ⟨c, hcmem, hcne⟩
        have hcmem' : c ∈ nonArxivOf (buildCandidates items) :=
          List.mem_filter.mpr ⟨hcmem, by simpa using hcne⟩
        have hne' : nonArxivOf (buildCandidates items) ≠ [] := List.ne_nil_of_mem hcmem'
        cases hE : (nonArxivOf (buildCandidates items)).isEmpty with
        | false => rfl
        | true => exact absurd (List.isEmpty_iff.mp hE) hne'
    · intro _
      refine ⟨a, tl, hcons, ?_, ?_, ?_⟩ <;> rw [hsel, hcons] <;> rfl

/-- C9 counterexample: with the single non-arxiv candidate
`https://example.com/a`, the `filtered_arxiv` debug flag is `true` although
the exclusion filter removed nothing (the filtered list equals the full
candidate list). -/
theorem filtered_arxiv_flag_cex :
    (select_cluster_links 3 [⟨some "https://example.com/a", none⟩]).debug.filteredArxiv = true
    ∧ nonArxivOf (buildCandidates [⟨some "https://example.com/a", none⟩])
        = buildCandidates [⟨some "https://example.com/a", none⟩] :=
  ⟨by with_unfolding_all decide, by with_unfolding_all decide⟩

/-! ## Cluster-assignment lemmas (for C3) -/

/-- The best-match fold of `cluster_news`: its score component is the
running maximum of the similarity scores (clamped below by the
accumulator), and the fold either leaves the accumulator unchanged or
returns some cluster of the list together with its exact score. -/
theorem bestMatch_fold (sim : String → String → ℚ) (t : String) :
    ∀ (active : List ClusterRef) (acc : Option ClusterRef × ℚ),
      (List.foldl (fun acc c =>
          let score := sim t c.title
          if acc.2 < score then (some c, score) else acc) acc active).2
        = List.foldl (fun m c => max m (sim t c.title)) acc.2 active
      ∧ (List.foldl (fun acc c =>
            let score := sim t c.title
            if acc.2 < score then (some c, score) else acc) acc active = acc
        ∨ ∃ c ∈ active,
            List.foldl (fun acc c =>
                let score := sim t c.title
                if acc.2 < score then (some c, score) else acc) acc active
              = (some c, sim t c.title)) := by
  intro active
  induction active with
  | nil => exact fun acc => ⟨rfl, Or.inl rfl⟩
  | cons c cs ih =>
    intro acc
    simp only [List.foldl_cons]
    by_cases hlt : acc.2 < sim t c.title
    · rw [if_pos hlt]
      have hmax : max acc.2 (sim t c.title) = sim t c.title := max_eq_right (le_of_lt hlt)
      refine ⟨?_, ?_⟩
      · rw [hmax, (ih (some c, sim t c.title)).1]
      · rcases (ih (some c, sim t c.title)).2 with h | ⟨c', hc', h⟩
        · exact Or.inr ⟨c, List.mem_cons_self c cs, h⟩
        · exact Or.inr ⟨c', List.mem_cons_of_mem _ hc', h⟩
    · rw [if_neg hlt]
      have hmax : max acc.2 (sim t c.title) = acc.2 := max_eq_left (not_lt.mp hlt)
      refine ⟨?_, ?_⟩
      · rw [hmax, (ih acc).1]
      · rcases (ih acc).2 with h | ⟨c', hc', h⟩
        · exact Or.inl h
        · exact Or.inr ⟨c', List.mem_cons_of_mem _ hc', h⟩

/-- C3: processing one item of the `cluster_news` loop with a positive
threshold: the best score is the maximum similarity against the active
clusters; if it reaches the threshold the item is assigned to a cluster
attaining the maximum and only that cluster's `last_seen_at` becomes
`GREATEST(last_seen_at, item.ts)`; otherwise a new cluster is inserted with
representative title the item's title and `first_seen_at = last_seen_at =
item.ts`, the item is assigned to it, and it joins the in-memory active
list, so the loop matches it against every subsequent item of the pass. -/
theorem cluster_assignment_spec (sim : String → String → ℚ) (threshold : ℚ)
    (db : NewsDB) (active : List ClusterRef) (item : NewsItem) (hth : 0 < threshold) :
    ((bestMatch sim item.title active).2 = maxScoreOf sim item.title active)
    ∧ (threshold ≤ maxScoreOf sim item.title active →
        ∃ c ∈ active,
          bestMatch sim item.title active = (some c, sim item.title c.title)
          ∧ sim item.title c.title = maxScoreOf sim item.title active
          ∧ assignItem sim threshold (db, active) item
            = (⟨db.clusters.map fun r =>
                  if r.id = c.id then { r with lastSeen := max r.lastSeen item.ts } else r,
                db.itemCluster ++ [(item.id, c.id)], db.nextId⟩, active))
    ∧ (maxScoreOf sim item.title active < threshold →
        assignItem sim threshold (db, active) item
          = (⟨db.clusters ++ [⟨db.nextId, item.title, item.ts, item.ts⟩],
              db.itemCluster ++ [(item.id, db.nextId)], db.nextId + 1⟩,
             active ++ [⟨db.nextId, item.title⟩])
        ∧ (⟨db.nextId, item.title⟩ : ClusterRef)
            ∈ (assignItem sim threshold (db, active) item).2)
    ∧ (∀ rest : List NewsItem,
        clusterNewsLoop sim threshold (item :: rest) (db, active)
          = clusterNewsLoop sim threshold rest (assignItem sim threshold (db, active) item)) := by
  have haux := bestMatch_fold sim item.title active (none, 0)
  have hbm2 : (bestMatch sim item.title active).2 = maxScoreOf sim item.title active := haux.1
  refine ⟨hbm2, ?_, ?_, fun rest => rfl⟩
  · intro hle
    rcases haux.2 with h | ⟨c, hc, h⟩
    · exfalso
      have hbm0 : bestMatch sim item.title active = (none, 0) := h
      have hz : maxScoreOf sim item.title active = 0 := by
        rw [← hbm2, hbm0]
      rw [hz] at hle
      exact absurd (lt_of_lt_of_le hth hle) (lt_irrefl _)
    · have hbm : bestMatch sim item.title active = (some c, sim item.title c.title) := h
      have hscore : sim item.title c.title = maxScoreOf sim item.title active := by
        rw [← hbm2, hbm]
      refine ⟨c, hc, hbm, hscore, ?_⟩
      simp only [assignItem]
      rw [hbm]
      simp only [if_pos (hscore ▸ hle)]
  · intro hlt
    have hassign : assignItem sim threshold (db, active) item
        = createCluster db active item := by
      simp only [assignItem]
      rcases haux.2 with h | ⟨c, hc, h⟩
      · have hbm0 : bestMatch sim item.title active = (none, 0) := h
        rw [hbm0]
      · have hbm : bestMatch sim item.title active = (some c, sim item.title c.title) := h
        rw [hbm]
        have hnle : ¬ threshold ≤ sim item.title c.title := by
          rw [← hbm2, hbm] at hlt
          exact not_le.mpr hlt
        simp only [if_neg hnle]
    rw [hassign]
    exact ⟨rfl, by simp [createCluster]⟩

/-- C3 witness: with no active clusters (best score 0 < 70), the item
`⟨10, "t", 5⟩` creates cluster 1 with title `"t"`, `first_seen_at =
last_seen_at = 5`, is assigned to it, and the new cluster is in the active
list seen by the rest of the pass. -/
theorem cluster_assignment_spec_witness :
    assignItem (fun a b => if a = b then 100 else 0) 70 (⟨[], [], 1⟩, []) ⟨10, "t", 5⟩
      = (⟨[⟨1, "t", 5, 5⟩], [(10, 1)], 2⟩, [⟨1, "t"⟩])
    ∧ (⟨1, "t"⟩ : ClusterRef)
        ∈ (assignItem (fun a b => if a = b then 100 else 0) 70 (⟨[], [], 1⟩, []) ⟨10, "t", 5⟩).2 :=
  (cluster_assignment_spec (fun a b => if a = b then 100 else 0) 70 ⟨[], [], 1⟩ []
      ⟨10, "t", 5⟩ (by norm_num)).2.2.1 (by norm_num [maxScoreOf])
